import Mathlib

/-!
# contacter: a verification development

A shallow embedding of the per-domain contact-form service (`abuseipdb.go`,
`config.go`, `template_registry.go`, `handlers.go`, `smtp.go`).

Conventions of the embedding
* A Go `map[string]V` is a function `String → Option V`; a nil map is `none`
  of `Option (GoMap V)`.
* A `time.Time` is an integer count of nanoseconds; a `time.Duration` is an
  integer count of nanoseconds saturated to the signed 64 bit range.
* What the operating system, the network and library code answer is part of
  an explicit world value handed to each function.
* A fault that ends the process (a Go runtime `fatal` or an unrecovered panic)
  is the `error` side of `Except Fault`.
-/

namespace Contacter

/-! ## Go maps -/

/-- A Go map with string keys: `none` at a key means the key is absent. -/
abbrev GoMap (V : Type) := String → Option V

/-- The result of `make(map[string]V)`. -/
def GoMap.empty {V : Type} : GoMap V := fun _ => none

/-- The map after `m[k] = v`. -/
def GoMap.insert {V : Type} (m : GoMap V) (k : String) (v : V) : GoMap V :=
  fun k' => if k' = k then some v else m k'

/-- The map after `delete(m, k)`. -/
def GoMap.delete {V : Type} (m : GoMap V) (k : String) : GoMap V :=
  fun k' => if k' = k then none else m k'

/-- The comma-ok read `v, ok := m[k]` on a possibly nil map: a nil map reads as empty. -/
def GoMap.read {V : Type} (m : Option (GoMap V)) (k : String) : Option V :=
  match m with
  | none => none
  | some f => f k

/-! ## Process faults and `sync.RWMutex` -/

/-- Faults that end the process instead of returning to the caller. -/
inductive Fault where
  /-- The runtime `fatal("sync: Unlock of unlocked RWMutex")`. -/
  | unlockOfUnlockedRWMutex
  /-- The runtime `fatal("sync: RUnlock of unlocked RWMutex")`. -/
  | rUnlockOfUnlockedRWMutex
  /-- The panic `assignment to entry in nil map`. -/
  | assignmentToNilMap
  /-- A lock request that can never be granted (the only holder is the requester). -/
  | blockedForever
  deriving DecidableEq, Repr

/-- The state of a `sync.RWMutex` that a single goroutine owns. -/
structure RWMutex where
  writer : Bool := false
  readers : Nat := 0
  deriving DecidableEq, Repr

/-- The method `(*RWMutex).Lock`. -/
def RWMutex.Lock (mu : RWMutex) : Except Fault RWMutex :=
  if mu.writer = true ∨ mu.readers ≠ 0 then .error .blockedForever
  else .ok { mu with writer := true }

/-- The method `(*RWMutex).Unlock`: fatal when the write lock is not held. -/
def RWMutex.Unlock (mu : RWMutex) : Except Fault RWMutex :=
  if mu.writer = true then .ok { mu with writer := false }
  else .error .unlockOfUnlockedRWMutex

/-- The method `(*RWMutex).RLock`. -/
def RWMutex.RLock (mu : RWMutex) : Except Fault RWMutex :=
  if mu.writer = true then .error .blockedForever
  else .ok { mu with readers := mu.readers + 1 }

/-- The method `(*RWMutex).RUnlock`: fatal when no read lock is held. -/
def RWMutex.RUnlock (mu : RWMutex) : Except Fault RWMutex :=
  if mu.readers = 0 then .error .rUnlockOfUnlockedRWMutex
  else .ok { mu with readers := mu.readers - 1 }

/-! ## `abuseipdb.go` -/

/-- The largest `time.Duration`, in nanoseconds. -/
def maxDuration : Int := 2 ^ 63 - 1

/-- The smallest `time.Duration`, in nanoseconds. -/
def minDuration : Int := -(2 ^ 63)

/-- The constant `time.Hour`, in nanoseconds. -/
def Hour : Int := 3600 * 1000000000

/-- The call `time.Since(t)` at wall-clock reading `now`: the difference, saturated. -/
def timeSince (now t : Int) : Int :=
  if now - t > maxDuration then maxDuration
  else if now - t < minDuration then minDuration
  else now - t

/-- The struct `CacheEntry`: a score and the time it was observed. -/
structure CacheEntry where
  Score : Int
  Timestamp : Int
  deriving DecidableEq, Repr

/-- What `cache.json` answers to `os.Stat`, `os.ReadFile` and `json.Unmarshal`. -/
inductive CacheFile where
  /-- The call `os.Stat` returns an error. -/
  | missing
  /-- The call `os.Stat` succeeds and `os.ReadFile` returns an error. -/
  | unreadable
  /-- The call `json.Unmarshal` returns an error, leaving `Entries` as given. -/
  | corrupt (leftover : Option (GoMap CacheEntry))
  /-- The call `json.Unmarshal` succeeds with this `Entries` field (nil when absent). -/
  | snapshot (Entries : Option (GoMap CacheEntry))

/-- What the provider request answers. -/
inductive ProviderReply where
  /-- The call `client.Do` returns an error. -/
  | transportError
  /-- The response body does not decode into `AbuseIPDBResponse`. -/
  | undecodable
  /-- The response body decodes, with this `abuseConfidenceScore`. -/
  | decoded (score : Int)
  deriving DecidableEq, Repr

/-- Everything outside the function that one call of `checkAbuseIPDB` observes. -/
structure World where
  cacheFile : CacheFile
  /-- The wall clock read by `time.Since`. -/
  clockAtCheck : Int
  reply : ProviderReply
  /-- The wall clock read by `time.Now` when the entry is stored. -/
  clockAtUpdate : Int
  /-- Whether `json.MarshalIndent` succeeds. -/
  marshalOk : Bool
  /-- Whether `os.WriteFile` succeeds. -/
  writeOk : Bool

/-- The non-nil errors `checkAbuseIPDB` returns. -/
inductive CheckError where
  /-- The error `IP %s blocked due to high abuse confidence score: %d`. -/
  | blocked (ip : String) (score : Int)
  /-- The error `AbuseIPDB request failed: %v`. -/
  | requestFailed
  /-- The error `AbuseIPDB decode failed: %v`. -/
  | decodeFailed
  deriving DecidableEq, Repr

/-- What a returning call of `checkAbuseIPDB` leaves behind. -/
structure Run where
  /-- The returned error, `none` for nil. -/
  err : Option CheckError
  /-- The number of `client.Do` calls made. -/
  providerCalls : Nat
  /-- The file `cache.json` after the call. -/
  cacheFile : CacheFile
  /-- The local `cache.Entries` at the return. -/
  store : Option (GoMap CacheEntry)
  /-- The lines printed with `fmt.Printf`. -/
  log : List String

/-- The `cache.Entries` that the load block (lines 36 to 55) hands on when it logs nothing:
an empty map for a missing file or a nil `entries` field, else the decoded map. -/
def CacheFile.loaded : CacheFile → Option (GoMap CacheEntry)
  | .missing => some GoMap.empty
  | .snapshot none => some GoMap.empty
  | .snapshot (some m) => some m
  | .unreadable => none
  | .corrupt _ => none

/-- The function `checkAbuseIPDB`. -/
def checkAbuseIPDB (w : World) (ip : String) : Except Fault Run := do
  let mut mu : RWMutex := {}
  let mut Entries : Option (GoMap CacheEntry) := none
  let mut log : List String := []
  -- Load cache (lazy initialization)
  mu ← mu.Lock
  match w.cacheFile with
  | .unreadable =>
    mu ← mu.Unlock
    log := log ++ ["Failed to read cache file"]
  | .corrupt leftover =>
    Entries := leftover
    mu ← mu.Unlock
    log := log ++ ["Failed to unmarshal cache"]
  | .snapshot loaded =>
    Entries := loaded
    if Entries.isNone then
      Entries := some GoMap.empty
  | .missing =>
    Entries := some GoMap.empty
  mu ← mu.Unlock
  -- Check cache
  mu ← mu.RLock
  match GoMap.read Entries ip with
  | some entry =>
    if timeSince w.clockAtCheck entry.Timestamp ≤ 24 * Hour then
      mu ← mu.RUnlock
      if entry.Score > 50 then
        return ⟨some (.blocked ip entry.Score), 0, w.cacheFile, Entries, log⟩
      return ⟨none, 0, w.cacheFile, Entries, log⟩
  | none => pure ()
  mu ← mu.RUnlock
  -- Query AbuseIPDB
  match w.reply with
  | .transportError =>
    return ⟨some .requestFailed, 1, w.cacheFile, Entries, log⟩
  | .undecodable =>
    return ⟨some .decodeFailed, 1, w.cacheFile, Entries, log⟩
  | .decoded score =>
    -- Update cache
    mu ← mu.Lock
    match Entries with
    | none => throw .assignmentToNilMap
    | some m => Entries := some (m.insert ip { Score := score, Timestamp := w.clockAtUpdate })
    let mut file := w.cacheFile
    if w.marshalOk = false then
      mu ← mu.Unlock
      log := log ++ ["Failed to marshal cache"]
    else
      if w.writeOk = false then
        mu ← mu.Unlock
        log := log ++ ["Failed to write cache file"]
      else
        file := .snapshot Entries
    let _ ← mu.Unlock
    if score > 50 then
      return ⟨some (.blocked ip score), 1, file, Entries, log⟩
    return ⟨none, 1, file, Entries, log⟩

/-- The struct `AbuseIPDBResponse`, flattened to its one field; a new value holds zero. -/
structure AbuseIPDBResponse where
  AbuseConfidenceScore : Int := 0
  deriving DecidableEq, Repr

/-- What `json.NewDecoder(resp.Body).Decode(&result)` finds in a response body. -/
inductive ResponseBody where
  /-- The body does not decode into `AbuseIPDBResponse`: not JSON, or a field of another type. -/
  | undecodable
  /-- The body decodes; `data.abuseConfidenceScore` is this integer, or is absent or null. -/
  | object (abuseConfidenceScore : Option Int)
  deriving DecidableEq, Repr

/-- The part of an `http.Response` that exists when `client.Do` returns no error. -/
structure HTTPResponse where
  StatusCode : Nat
  Body : ResponseBody
  deriving DecidableEq, Repr

/-- Lines 76 to 85 of `checkAbuseIPDB`: the request and the decoding of its answer, `none` being
a `client.Do` error. The decoder writes only the fields it finds into the zero `result`. -/
def queryAbuseIPDB (answer : Option HTTPResponse) : ProviderReply :=
  match answer with
  | none => .transportError
  | some resp =>
    let result : AbuseIPDBResponse := {}
    match resp.Body with
    | .undecodable => .undecodable
    | .object none => .decoded result.AbuseConfidenceScore
    | .object (some score) =>
      .decoded ({ result with AbuseConfidenceScore := score }).AbuseConfidenceScore

/-! ## Library functions taken as parameters -/

/-- The library functions on strings and paths that the program calls. -/
structure Lib where
  /-- The function `strings.ToLower`. -/
  ToLower : String → String
  /-- The function `filepath.Join` on two elements. -/
  Join : String → String → String
  /-- The function `filepath.Base`. -/
  Base : String → String

/-- The function `strings.HasSuffix`. -/
def HasSuffix (s suffix : String) : Bool :=
  suffix.data.isSuffixOf s.data

/-- The function `strings.TrimSuffix`. -/
def TrimSuffix (s suffix : String) : String :=
  if HasSuffix s suffix then ⟨s.data.take (s.data.length - suffix.data.length)⟩ else s

/-! ## `config.go` -/

/-- The struct `Network`: an IP network as address and mask bytes. -/
structure Network where
  IP : List Nat
  Mask : List Nat
  deriving DecidableEq, Repr

/-- The struct `UpstreamConfig`. -/
structure UpstreamConfig where
  Whitelist : List Network
  Method : String
  deriving DecidableEq, Repr

/-- The struct `SMTPConfig`. -/
structure SMTPConfig where
  Host : String
  Port : Int
  Recipient : String
  deriving DecidableEq, Repr

/-- The struct `SMTPTestConfig`. -/
structure SMTPTestConfig where
  Enabled : Bool
  Helo : String
  From : String
  deriving DecidableEq, Repr

/-- The struct `AbuseIPDBConfig`. -/
structure AbuseIPDBConfig where
  Enabled : Bool
  APIKey : String
  CacheFile : String
  deriving DecidableEq, Repr

/-- The struct `Config`. -/
structure Config where
  Upstream : UpstreamConfig
  SMTP : SMTPConfig
  SMTPTest : SMTPTestConfig
  AbuseIPDB : AbuseIPDBConfig
  deriving DecidableEq, Repr

/-- The struct `ConfigCache` without its lock. -/
structure ConfigCache where
  configs : GoMap Config
  dir : String

/-- What a path of the config directory answers to `os.Stat`, `os.ReadFile`, `json.Unmarshal`. -/
inductive ConfFile where
  /-- The call `os.Stat` returns an error. -/
  | missing
  /-- The call `os.Stat` succeeds and `os.ReadFile` returns an error. -/
  | unreadable
  /-- The call `json.Unmarshal` returns an error. -/
  | malformed
  /-- The call `json.Unmarshal` succeeds with this value. -/
  | parsed (c : Config)
  deriving DecidableEq, Repr

/-- The non-nil errors `ConfigCache.Get` returns. -/
inductive GetError where
  /-- The error `failed to read domain config %s: %v`. -/
  | readDomain (path : String)
  /-- The error `failed to unmarshal domain config %s: %v`. -/
  | unmarshalDomain (path : String)
  /-- The error `failed to read default config %s: %v`. -/
  | readDefault (path : String)
  /-- The error `failed to unmarshal default config %s: %v`. -/
  | unmarshalDefault (path : String)
  /-- The error `no config found in %s for domain %s (tried %s and default.conf)`. -/
  | notFound (dir domain path : String)
  deriving DecidableEq, Repr

/-- The method `ConfigCache.Get`: the returned pair and the cache afterwards. -/
def ConfigCache.Get (lib : Lib) (fs : String → ConfFile) (cc : ConfigCache) (domain : String) :
    Except GetError Config × ConfigCache :=
  let domain := lib.ToLower domain
  match cc.configs domain with
  | some cachedConfig => (.ok cachedConfig, cc)
  | none =>
    -- Load config; recheck to avoid race
    match cc.configs domain with
    | some config => (.ok config, cc)
    | none =>
      -- Try domain-specific config
      let domainConfigPath := lib.Join cc.dir (domain ++ ".conf")
      match fs domainConfigPath with
      | .unreadable => (.error (.readDomain domainConfigPath), cc)
      | .malformed => (.error (.unmarshalDomain domainConfigPath), cc)
      | .parsed config => (.ok config, { cc with configs := cc.configs.insert domain config })
      | .missing =>
        -- Try default config
        let defaultConfigPath := lib.Join cc.dir "default.conf"
        match fs defaultConfigPath with
        | .unreadable => (.error (.readDefault defaultConfigPath), cc)
        | .malformed => (.error (.unmarshalDefault defaultConfigPath), cc)
        | .parsed config => (.ok config, { cc with configs := cc.configs.insert domain config })
        | .missing => (.error (.notFound cc.dir domain domainConfigPath), cc)

/-- The operation bit `fsnotify.Create`. -/
def fsCreate : Nat := 1
/-- The operation bit `fsnotify.Write`. -/
def fsWrite : Nat := 2
/-- The operation bit `fsnotify.Remove`. -/
def fsRemove : Nat := 4
/-- The operation bit `fsnotify.Rename`. -/
def fsRename : Nat := 8
/-- The operation bit `fsnotify.Chmod`. -/
def fsChmod : Nat := 16

/-- The struct `fsnotify.Event`. -/
structure Event where
  Name : String
  Op : Nat
  deriving DecidableEq, Repr

/-- One turn of the loop of `ConfigCache.watchConfigDir` on a received event.
The `range` loop deleting every key leaves the empty map. -/
def ConfigCache.watchConfigDir (lib : Lib) (cc : ConfigCache) (event : Event) : ConfigCache :=
  if event.Op &&& (fsWrite ||| fsCreate ||| fsRemove) ≠ 0 ∧ HasSuffix event.Name ".conf" = true then
    let filename := lib.Base event.Name
    let domain := TrimSuffix filename ".conf"
    -- Clear cache for affected domain (or all domains if default.conf)
    if domain = "default" then
      { cc with configs := GoMap.empty }
    else
      { cc with configs := cc.configs.delete domain }
  else cc

/-! ## `template_registry.go` -/

/-- A parsed `html/template`, identified by the file it was parsed from. -/
structure Template where
  file : String
  deriving DecidableEq, Repr

/-- The struct `TemplateData`. -/
structure TemplateData where
  Success : Bool := false
  Error : String := ""
  deriving DecidableEq, Repr

/-- The struct `TemplateRegistry` without its lock. -/
structure TemplateRegistry where
  templates : GoMap Template

/-- What `TemplateRegistry.Render` does: fail before executing, or execute one template. -/
inductive Rendering where
  /-- The error `template %s not found (fallback to default also failed)`. -/
  | notFound (tmplPath : String)
  /-- The call `tmpl.Execute(w, data)` and the error it returned. -/
  | executed (tmpl : Template) (err : Option String)
  deriving DecidableEq, Repr

/-- The method `TemplateRegistry.Render`; `Execute` is `(*template.Template).Execute`. -/
def TemplateRegistry.Render (lib : Lib) (Execute : Template → TemplateData → Option String)
    (tr : TemplateRegistry) (name : String) (data : TemplateData) : Rendering :=
  -- Use the provided name (domain) to construct the template path
  let tmplPath := lib.Join (lib.ToLower name) "contact.html"
  match tr.templates tmplPath with
  | some tmpl => .executed tmpl (Execute tmpl data)
  | none =>
    -- Fall back to default template
    let tmplPath := lib.Join "default" "contact.html"
    match tr.templates tmplPath with
    | some tmpl => .executed tmpl (Execute tmpl data)
    | none => .notFound tmplPath

/-! ## `smtp.go` -/

/-- The function `strings.Split` with a one-character separator, on character lists. -/
def splitChars (sep : Char) : List Char → List (List Char)
  | [] => [[]]
  | c :: cs =>
    if c = sep then [] :: splitChars sep cs
    else
      match splitChars sep cs with
      | [] => [[c]]
      | p :: ps => (c :: p) :: ps

/-- The function `strings.Split` with a one-character separator. -/
def Split (s : String) (sep : Char) : List String :=
  (splitChars sep s.data).map String.mk

/-- The struct `net.MX`. -/
structure MX where
  Host : String
  Pref : Nat
  deriving DecidableEq, Repr

/-- What the resolver and the probed mail server answer; an error is its message. -/
structure SMTPNet where
  /-- The function `net.LookupMX`: the records and the error. -/
  LookupMX : String → List MX × Option String
  /-- The function `smtp.Dial`. -/
  Dial : String → Option String
  /-- The method `client.Hello`. -/
  Hello : String → Option String
  /-- The method `client.Mail`. -/
  Mail : String → Option String
  /-- The method `client.Rcpt`. -/
  Rcpt : String → Option String
  /-- The method `client.Quit`. -/
  Quit : Option String

/-- The text `%v` prints for an error value. -/
def errText : Option String → String
  | none => "<nil>"
  | some e => e

/-- The function `testRecipientSMTPServer`: the message of the returned error, `none` for nil. -/
def testRecipientSMTPServer (net : SMTPNet) (email : String) (config : SMTPTestConfig) :
    Option String :=
  let parts := Split email '@'
  if parts.length ≠ 2 then some "invalid email format"
  else
    let domain := parts.getD 1 ""
    let (mxRecords, err) := net.LookupMX domain
    if err ≠ none ∨ mxRecords.length = 0 then
      some ("failed to resolve MX records for " ++ domain ++ ": " ++ errText err)
    else
      let mxHost := TrimSuffix ((mxRecords.map MX.Host).getD 0 "") "."
      let addr := mxHost ++ ":25"
      match net.Dial addr with
      | some e => some ("failed to connect to " ++ addr ++ ": " ++ e)
      | none =>
        match net.Hello config.Helo with
        | some e => some ("HELO failed: " ++ e)
        | none =>
          match net.Mail config.From with
          | some e => some ("MAIL FROM failed: " ++ e)
          | none =>
            match net.Rcpt email with
            | some e => some ("RCPT TO failed: " ++ e)
            | none =>
              match net.Quit with
              | some e => some ("QUIT failed: " ++ e)
              | none => none

/-! ## `handlers.go` -/

/-- The struct `ContactDetails`. -/
structure ContactDetails where
  Name : String
  Email : String
  Subject : String
  Message : String
  deriving DecidableEq, Repr

/-- The struct `EmailDetails`. -/
structure EmailDetails where
  Contact : ContactDetails
  RemoteIP : String
  UserAgent : String
  deriving DecidableEq, Repr

/-- What `handleContact` reads from the `echo.Context`. -/
structure Request where
  Host : String
  Method : String
  RealIP : String
  UserAgent : String
  deriving DecidableEq, Repr

/-- The outcomes of the functions `handleContact` calls; an error is its message. -/
structure Collaborators where
  /-- The call `c.configCache.Get(domain)`. -/
  Get : String → Except String Config
  /-- The call `checkAbuseIPDB(clientIP)`, which may end the process. -/
  checkAbuseIPDB : String → Except Fault (Option String)
  /-- The call `ec.Bind(&details)`. -/
  Bind : Except String ContactDetails
  /-- The call `testRecipientSMTPServer(details.Email, config.SMTPTest)`. -/
  testRecipientSMTPServer : String → SMTPTestConfig → Option String
  /-- The call `sendEmail(details, config.SMTP)`. -/
  sendEmail : EmailDetails → SMTPConfig → Option String

/-- The `ec.Render` call that ends `handleContact`, and the `sendEmail` calls made before it. -/
structure Response where
  code : Nat
  name : String
  data : TemplateData
  sendEmailCalls : List (EmailDetails × SMTPConfig)
  deriving DecidableEq, Repr

/-- The method `Contacter.handleContact`. -/
def handleContact (lib : Lib) (c : Collaborators) (req : Request) : Except Fault Response := do
  let domain := lib.ToLower req.Host
  match c.Get domain with
  | .error _ =>
    return ⟨500, domain, { Error := "Failed to load config" }, []⟩
  | .ok config =>
    let clientIP := req.RealIP
    -- Check AbuseIPDB
    if config.AbuseIPDB.Enabled then
      if let some err ← c.checkAbuseIPDB clientIP then
        return ⟨200, domain, { Error := "Access denied: " ++ err }, []⟩
    if req.Method ≠ "POST" then
      -- Show form
      return ⟨200, domain, {}, []⟩
    -- Parse form data
    match c.Bind with
    | .error _ =>
      return ⟨200, domain, { Error := "Invalid form data" }, []⟩
    | .ok details =>
      -- Test SMTP server for recipient acceptance
      if config.SMTPTest.Enabled then
        if let some err := c.testRecipientSMTPServer details.Email config.SMTPTest then
          return ⟨200, domain, { Error := "SMTP test failed: " ++ err }, []⟩
      -- Send email
      let mail : EmailDetails := ⟨details, req.RealIP, req.UserAgent⟩
      if let some err := c.sendEmail mail config.SMTP then
        return ⟨200, domain, { Error := "Failed to send email: " ++ err }, [(mail, config.SMTP)]⟩
      -- Success
      return ⟨200, domain, { Success := true }, [(mail, config.SMTP)]⟩

/-! ## Concrete inputs -/

/-- A world with no snapshot on disk, a provider that answers score 51, and working persistence. -/
def worldFirstLookup : World :=
  { cacheFile := .missing, clockAtCheck := 1000, reply := .decoded 51, clockAtUpdate := 1001,
    marshalOk := true, writeOk := true }

/-- A world whose snapshot holds `1.2.3.4` with score 80 observed at the current clock reading. -/
def worldSnapshot80 : World :=
  { cacheFile := .snapshot (some (GoMap.empty.insert "1.2.3.4" ⟨80, 1000⟩)), clockAtCheck := 1000,
    reply := .transportError, clockAtUpdate := 1001, marshalOk := true, writeOk := true }

/-- A world with no snapshot on disk and a provider that cannot be reached. -/
def worldProviderDown : World :=
  { cacheFile := .missing, clockAtCheck := 1000, reply := .transportError, clockAtUpdate := 1001,
    marshalOk := true, writeOk := true }

/-- A map with an entry for `5.6.7.8` and an entry for `1.2.3.4` observed at time 0. -/
def entriesTwo : GoMap CacheEntry :=
  (GoMap.empty.insert "5.6.7.8" ⟨70, 5⟩).insert "1.2.3.4" ⟨80, 0⟩

/-- A world whose snapshot is `entriesTwo`, read more than 24 hours after time 0, with a provider
that answers score 10. -/
def worldStaleEntry : World :=
  { cacheFile := .snapshot (some entriesTwo),
    clockAtCheck := 24 * Hour + 1, reply := .decoded 10, clockAtUpdate := 24 * Hour + 2,
    marshalOk := true, writeOk := true }

/-- A world with no snapshot on disk and a provider that answers status 429 with a JSON body
that has no `data.abuseConfidenceScore`. -/
def worldRateLimited : World :=
  { cacheFile := .missing, clockAtCheck := 1000,
    reply := queryAbuseIPDB (some ⟨429, .object none⟩), clockAtUpdate := 1001,
    marshalOk := true, writeOk := true }

/-- A concrete library: ASCII lower-casing, joining with a slash, the text after the last slash. -/
def libUnix : Lib :=
  { ToLower := fun s => ⟨s.data.map Char.toLower⟩
    Join := fun a b => a ++ "/" ++ b
    Base := fun p => ⟨(p.data.reverse.takeWhile (fun c => c != '/')).reverse⟩ }

/-- The configuration held in `default.conf` of the concrete directories. -/
def cfgDefault : Config :=
  { Upstream := ⟨[], "direct"⟩, SMTP := ⟨"localhost", 25, "postmaster@example.org"⟩,
    SMTPTest := ⟨false, "", ""⟩, AbuseIPDB := ⟨false, "", ""⟩ }

/-- A configuration of the domain `acme.com`, with both checks enabled. -/
def cfgAcme : Config :=
  { Upstream := ⟨[], "direct"⟩, SMTP := ⟨"mail.acme.com", 25, "sales@acme.com"⟩,
    SMTPTest := ⟨true, "contacter", "probe@acme.com"⟩, AbuseIPDB := ⟨true, "key", "cache.json"⟩ }

/-- A config directory holding only a valid `default.conf`. -/
def fsDefaultOnly : String → ConfFile :=
  fun p => if p = "config/default.conf" then .parsed cfgDefault else .missing

/-- A config directory holding a malformed `acme.com.conf` and a valid `default.conf`. -/
def fsMalformedAcme : String → ConfFile :=
  fun p => if p = "config/acme.com.conf" then .malformed
    else if p = "config/default.conf" then .parsed cfgDefault else .missing

/-- A config cache with nothing resolved yet. -/
def ccEmpty : ConfigCache := ⟨GoMap.empty, "config"⟩

/-- A config cache that has resolved `acme.com` and `example.org`. -/
def ccTwo : ConfigCache :=
  ⟨(GoMap.empty.insert "example.org" cfgDefault).insert "acme.com" cfgAcme, "config"⟩

/-- A template index holding only the default template. -/
def trDefaultOnly : TemplateRegistry :=
  ⟨GoMap.empty.insert "default/contact.html" ⟨"templates/default/contact.html"⟩⟩

/-- A resolver that finds no MX record for any domain. -/
def netNoMX : SMTPNet :=
  { LookupMX := fun _ => ([], none), Dial := fun _ => none, Hello := fun _ => none,
    Mail := fun _ => none, Rcpt := fun _ => none, Quit := none }

/-- Collaborators of a request for `acme.com`: the config enables both checks, the reputation
check allows, the form binds, the probe runs against `netNoMX`, delivery would succeed. -/
def collabNoMX : Collaborators :=
  { Get := fun _ => .ok cfgAcme
    checkAbuseIPDB := fun _ => .ok none
    Bind := .ok ⟨"Ann", "ann@nowhere.invalid", "Hello", "A question"⟩
    testRecipientSMTPServer := testRecipientSMTPServer netNoMX
    sendEmail := fun _ _ => none }

/-- Collaborators of a request served by the default config (both checks disabled), with a form
that binds and a delivery that succeeds. -/
def collabDefault : Collaborators :=
  { Get := fun _ => .ok cfgDefault
    checkAbuseIPDB := fun _ => .ok (some "unused")
    Bind := .ok ⟨"Ann", "ann@example.org", "Hello", "A question"⟩
    testRecipientSMTPServer := fun _ _ => some "unused"
    sendEmail := fun _ _ => none }

/-- A submission to `Acme.com`. -/
def postRequest : Request := ⟨"Acme.com", "POST", "1.2.3.4", "curl/8"⟩

/-! ## The reputation cache: how a call runs -/

/-- Saturation does not move a duration across the 24 hour bound. -/
theorem timeSince_le_day (now t : Int) : timeSince now t ≤ 24 * Hour ↔ now - t ≤ 24 * Hour := by
  unfold timeSince maxDuration minDuration Hour
  split_ifs <;> omega

/-- The three ways the load block hands on a map without logging. -/
theorem loaded_cases (f : CacheFile) (m : GoMap CacheEntry) (hload : f.loaded = some m) :
    (f = .missing ∧ m = GoMap.empty) ∨ (f = .snapshot none ∧ m = GoMap.empty) ∨
      f = .snapshot (some m) := by
  cases f with
  | missing => left; simpa [CacheFile.loaded, eq_comm] using hload
  | unreadable => simp [CacheFile.loaded] at hload
  | corrupt l => simp [CacheFile.loaded] at hload
  | snapshot l =>
    cases l with
    | none => right; left; simpa [CacheFile.loaded, eq_comm] using hload
    | some m' => right; right; simp [CacheFile.loaded] at hload; rw [hload]

/-- A call that finds a fresh entry returns from the cache check. -/
theorem run_of_fresh (w : World) (ip : String) (m : GoMap CacheEntry) (e : CacheEntry)
    (hload : w.cacheFile.loaded = some m) (he : m ip = some e)
    (hfresh : timeSince w.clockAtCheck e.Timestamp ≤ 24 * Hour) :
    checkAbuseIPDB w ip = .ok ⟨if e.Score > 50 then some (.blocked ip e.Score) else none, 0,
      w.cacheFile, some m, []⟩ := by
  rcases loaded_cases _ _ hload with ⟨_, rfl⟩ | ⟨_, rfl⟩ | hf
  · simp [GoMap.empty] at he
  · simp [GoMap.empty] at he
  · simp [checkAbuseIPDB, hf, RWMutex.Lock, RWMutex.Unlock, RWMutex.RLock, RWMutex.RUnlock,
      GoMap.read, he, hfresh, bind, Except.bind, pure, Except.pure]
    split <;> rfl

/-- A call that finds no fresh entry goes on to the provider; what happens then. -/
theorem run_of_miss (w : World) (ip : String) (m : GoMap CacheEntry)
    (hload : w.cacheFile.loaded = some m)
    (hstale : ∀ e, m ip = some e → ¬ timeSince w.clockAtCheck e.Timestamp ≤ 24 * Hour) :
    checkAbuseIPDB w ip =
      match w.reply with
      | .transportError => .ok ⟨some .requestFailed, 1, w.cacheFile, some m, []⟩
      | .undecodable => .ok ⟨some .decodeFailed, 1, w.cacheFile, some m, []⟩
      | .decoded s =>
        if w.marshalOk = true ∧ w.writeOk = true then
          .ok ⟨if s > 50 then some (.blocked ip s) else none, 1,
            .snapshot (some (m.insert ip ⟨s, w.clockAtUpdate⟩)),
            some (m.insert ip ⟨s, w.clockAtUpdate⟩), []⟩
        else .error .unlockOfUnlockedRWMutex := by
  rcases loaded_cases _ _ hload with ⟨hf, rfl⟩ | ⟨hf, rfl⟩ | hf
  · cases hr : w.reply <;> cases hmo : w.marshalOk <;> cases hwo : w.writeOk <;>
      simp [checkAbuseIPDB, hf, hr, hmo, hwo, RWMutex.Lock, RWMutex.Unlock, RWMutex.RLock,
        RWMutex.RUnlock, GoMap.read, GoMap.empty, bind, Except.bind, pure, Except.pure]
    split <;> rfl
  · cases hr : w.reply <;> cases hmo : w.marshalOk <;> cases hwo : w.writeOk <;>
      simp [checkAbuseIPDB, hf, hr, hmo, hwo, RWMutex.Lock, RWMutex.Unlock, RWMutex.RLock,
        RWMutex.RUnlock, GoMap.read, GoMap.empty, bind, Except.bind, pure, Except.pure]
    split <;> rfl
  · cases hm : m ip with
    | none =>
      cases hr : w.reply <;> cases hmo : w.marshalOk <;> cases hwo : w.writeOk <;>
        simp [checkAbuseIPDB, hf, hr, hmo, hwo, hm, RWMutex.Lock, RWMutex.Unlock, RWMutex.RLock,
          RWMutex.RUnlock, GoMap.read, bind, Except.bind, pure, Except.pure]
      split <;> rfl
    | some e =>
      have hs := hstale e hm
      cases hr : w.reply <;> cases hmo : w.marshalOk <;> cases hwo : w.writeOk <;>
        simp [checkAbuseIPDB, hf, hr, hmo, hwo, hm, hs, RWMutex.Lock, RWMutex.Unlock,
          RWMutex.RLock, RWMutex.RUnlock, GoMap.read, bind, Except.bind, pure, Except.pure]
      split <;> rfl

/-- A load block that logs a failure unlocks twice, which ends the process. -/
theorem run_of_failed_load (w : World) (ip : String)
    (hf : w.cacheFile = .unreadable ∨ ∃ l, w.cacheFile = .corrupt l) :
    checkAbuseIPDB w ip = .error .unlockOfUnlockedRWMutex := by
  rcases hf with hf | ⟨l, hf⟩ <;>
    simp [checkAbuseIPDB, hf, RWMutex.Lock, RWMutex.Unlock, bind, Except.bind, pure, Except.pure]

/-! ## The reputation cache: claims -/

/-- C1: whenever `checkAbuseIPDB` decides on a score `s`, taken from a fresh cached entry or
from a decoded provider response that it then persists, it returns, and the returned error is
non-nil (the block error carrying `s`) exactly when `s > 50`. -/
theorem checkAbuseIPDB_blocks_iff_score_gt_50 (w : World) (ip : String) (m : GoMap CacheEntry)
    (s : Int) (hload : w.cacheFile.loaded = some m)
    (hs : (∃ e, m ip = some e ∧ timeSince w.clockAtCheck e.Timestamp ≤ 24 * Hour ∧ e.Score = s) ∨
      ((∀ e, m ip = some e → ¬ timeSince w.clockAtCheck e.Timestamp ≤ 24 * Hour) ∧
        w.reply = .decoded s ∧ w.marshalOk = true ∧ w.writeOk = true)) :
    ∃ r, checkAbuseIPDB w ip = .ok r ∧ (r.err ≠ none ↔ s > 50) ∧
      (s > 50 → r.err = some (.blocked ip s)) ∧ (s ≤ 50 → r.err = none) := by
  rcases hs with ⟨e, he, hfresh, rfl⟩ | ⟨hstale, hr, hmo, hwo⟩
  · refine ⟨_, run_of_fresh w ip m e hload he hfresh, ?_, ?_, ?_⟩
    · by_cases h : e.Score > 50 <;> simp [h]
    · intro h; simp [h]
    · intro h; simp [not_lt.mpr h]
  · refine ⟨⟨if s > 50 then some (.blocked ip s) else none, 1,
        .snapshot (some (m.insert ip ⟨s, w.clockAtUpdate⟩)),
        some (m.insert ip ⟨s, w.clockAtUpdate⟩), []⟩, ?_, ?_, ?_, ?_⟩
    · rw [run_of_miss w ip m hload hstale, hr]
      simp [hmo, hwo]
    · by_cases h : s > 50 <;> simp [h]
    · intro h; simp [h]
    · intro h; simp [not_lt.mpr h]

/-- C1 at the boundary: a first lookup answered with score 51 is blocked. -/
theorem checkAbuseIPDB_blocks_iff_score_gt_50_witness :
    ∃ r, checkAbuseIPDB worldFirstLookup "1.2.3.4" = .ok r ∧ (r.err ≠ none ↔ (51 : Int) > 50) ∧
      ((51 : Int) > 50 → r.err = some (.blocked "1.2.3.4" 51)) ∧ ((51 : Int) ≤ 50 → r.err = none) :=
  checkAbuseIPDB_blocks_iff_score_gt_50 worldFirstLookup "1.2.3.4" GoMap.empty 51 rfl
    (Or.inr ⟨fun e h => by simp [GoMap.empty] at h, rfl, rfl, rfl⟩)

/-- C2: for a snapshot that reads and decodes and an address whose entry in it has an age
(current time minus its timestamp) of at most 24 hours, `checkAbuseIPDB` returns with zero
provider calls and the snapshot file as it was, the error being the block error with the cached
score when that score exceeds 50 and nil otherwise. -/
theorem checkAbuseIPDB_fresh_entry_answers_from_snapshot (w : World) (ip : String)
    (loaded : Option (GoMap CacheEntry)) (e : CacheEntry)
    (hf : w.cacheFile = .snapshot loaded) (he : GoMap.read loaded ip = some e)
    (hage : w.clockAtCheck - e.Timestamp ≤ 24 * Hour) :
    ∃ r, checkAbuseIPDB w ip = .ok r ∧ r.providerCalls = 0 ∧ r.cacheFile = w.cacheFile ∧
      r.err = if e.Score > 50 then some (.blocked ip e.Score) else none := by
  cases loaded with
  | none => simp [GoMap.read] at he
  | some m =>
    have hload : w.cacheFile.loaded = some m := by rw [hf]; rfl
    exact ⟨_, run_of_fresh w ip m e hload he ((timeSince_le_day _ _).mpr hage), rfl, rfl, rfl⟩

/-- C2 on the snapshot of the claim: score 80 observed now is blocked without a provider call. -/
theorem checkAbuseIPDB_fresh_entry_answers_from_snapshot_witness :
    ∃ r, checkAbuseIPDB worldSnapshot80 "1.2.3.4" = .ok r ∧ r.providerCalls = 0 ∧
      r.cacheFile = worldSnapshot80.cacheFile ∧
      r.err = if (80 : Int) > 50 then some (.blocked "1.2.3.4" 80) else none :=
  checkAbuseIPDB_fresh_entry_answers_from_snapshot worldSnapshot80 "1.2.3.4"
    (some (GoMap.empty.insert "1.2.3.4" ⟨80, 1000⟩)) ⟨80, 1000⟩ rfl (by decide) (by decide)

/-- C3: the code at a snapshot that exists but cannot be read, or cannot be decoded: the second
`cache.mu.Unlock()` of the load block ends the process, for every address and whatever the rest
of the world answers, whereas a missing snapshot lets the same call return. -/
theorem checkAbuseIPDB_unusable_snapshot_is_fatal (w : World) (ip : String) :
    checkAbuseIPDB { w with cacheFile := .unreadable } ip = .error .unlockOfUnlockedRWMutex ∧
      (∀ l, checkAbuseIPDB { w with cacheFile := .corrupt l } ip =
        .error .unlockOfUnlockedRWMutex) ∧
      ∃ r, checkAbuseIPDB { w with cacheFile := .missing, reply := .transportError } ip = .ok r :=
  ⟨run_of_failed_load _ ip (Or.inl rfl), fun l => run_of_failed_load _ ip (Or.inr ⟨l, rfl⟩),
    _, run_of_miss _ ip GoMap.empty rfl (fun e h => by simp [GoMap.empty] at h)⟩

/-- C4: when the loaded store has no fresh entry for the address and the provider request fails
in transport or its body fails to decode, `checkAbuseIPDB` returns a non-nil error after one
provider call, with the store as loaded and the snapshot file as it was. -/
theorem checkAbuseIPDB_provider_failure_not_cached (w : World) (ip : String)
    (m : GoMap CacheEntry) (hload : w.cacheFile.loaded = some m)
    (hstale : ∀ e, m ip = some e → ¬ timeSince w.clockAtCheck e.Timestamp ≤ 24 * Hour)
    (hfail : w.reply = .transportError ∨ w.reply = .undecodable) :
    ∃ r, checkAbuseIPDB w ip = .ok r ∧ r.err ≠ none ∧
      (r.err = some .requestFailed ∨ r.err = some .decodeFailed) ∧
      r.providerCalls = 1 ∧ r.store = some m ∧ r.cacheFile = w.cacheFile := by
  rcases hfail with hr | hr
  · refine ⟨⟨some .requestFailed, 1, w.cacheFile, some m, []⟩, ?_, by simp, by simp, rfl, rfl, rfl⟩
    rw [run_of_miss w ip m hload hstale, hr]
  · refine ⟨⟨some .decodeFailed, 1, w.cacheFile, some m, []⟩, ?_, by simp, by simp, rfl, rfl, rfl⟩
    rw [run_of_miss w ip m hload hstale, hr]

/-- C4 with no snapshot and an unreachable provider. -/
theorem checkAbuseIPDB_provider_failure_not_cached_witness :
    ∃ r, checkAbuseIPDB worldProviderDown "1.2.3.4" = .ok r ∧ r.err ≠ none ∧
      (r.err = some .requestFailed ∨ r.err = some .decodeFailed) ∧
      r.providerCalls = 1 ∧ r.store = some GoMap.empty ∧
      r.cacheFile = worldProviderDown.cacheFile :=
  checkAbuseIPDB_provider_failure_not_cached worldProviderDown "1.2.3.4" GoMap.empty rfl
    (fun e h => by simp [GoMap.empty] at h) (Or.inl rfl)

/-- C5: the code at a provider success followed by a failed snapshot write, or a failed
serialisation: the second `cache.mu.Unlock()` of the update block ends the process before any
decision is returned, for every address and score. -/
theorem checkAbuseIPDB_failed_persist_is_fatal (w : World) (ip : String) (s : Int) :
    checkAbuseIPDB ⟨.missing, w.clockAtCheck, .decoded s, w.clockAtUpdate, true, false⟩ ip =
        .error .unlockOfUnlockedRWMutex ∧
      checkAbuseIPDB ⟨.missing, w.clockAtCheck, .decoded s, w.clockAtUpdate, false, w.writeOk⟩ ip =
        .error .unlockOfUnlockedRWMutex := by
  constructor
  · rw [run_of_miss ⟨.missing, w.clockAtCheck, .decoded s, w.clockAtUpdate, true, false⟩ ip
      GoMap.empty rfl (fun e h => by simp [GoMap.empty] at h)]
    simp
  · rw [run_of_miss ⟨.missing, w.clockAtCheck, .decoded s, w.clockAtUpdate, false, w.writeOk⟩ ip
      GoMap.empty rfl (fun e h => by simp [GoMap.empty] at h)]
    simp

/-- C6: when the loaded snapshot has no fresh entry for the address, the provider answers score
`s` and the snapshot is serialised and written, `checkAbuseIPDB` returns after exactly one
provider call, and the snapshot file then maps the address to score `s` with the current time
and every other address to what the loaded snapshot held for it. -/
theorem checkAbuseIPDB_miss_upserts_one_entry (w : World) (ip : String) (m : GoMap CacheEntry)
    (s : Int) (hload : w.cacheFile.loaded = some m)
    (hstale : ∀ e, m ip = some e → ¬ timeSince w.clockAtCheck e.Timestamp ≤ 24 * Hour)
    (hr : w.reply = .decoded s) (hmo : w.marshalOk = true) (hwo : w.writeOk = true) :
    ∃ r m', checkAbuseIPDB w ip = .ok r ∧ r.providerCalls = 1 ∧
      r.cacheFile = .snapshot (some m') ∧ m' ip = some ⟨s, w.clockAtUpdate⟩ ∧
      ∀ k, k ≠ ip → m' k = m k := by
  refine ⟨⟨if s > 50 then some (.blocked ip s) else none, 1,
      .snapshot (some (m.insert ip ⟨s, w.clockAtUpdate⟩)),
      some (m.insert ip ⟨s, w.clockAtUpdate⟩), []⟩, m.insert ip ⟨s, w.clockAtUpdate⟩,
      ?_, rfl, rfl, ?_, ?_⟩
  · rw [run_of_miss w ip m hload hstale, hr]
    simp [hmo, hwo]
  · simp [GoMap.insert]
  · intro k hk
    simp [GoMap.insert, hk]

/-- C6 on a snapshot with an expired entry for the address and an entry for another address. -/
theorem checkAbuseIPDB_miss_upserts_one_entry_witness :
    ∃ r m', checkAbuseIPDB worldStaleEntry "1.2.3.4" = .ok r ∧ r.providerCalls = 1 ∧
      r.cacheFile = .snapshot (some m') ∧ m' "1.2.3.4" = some ⟨10, worldStaleEntry.clockAtUpdate⟩ ∧
      ∀ k, k ≠ "1.2.3.4" → m' k = entriesTwo k :=
  checkAbuseIPDB_miss_upserts_one_entry worldStaleEntry "1.2.3.4" entriesTwo 10 rfl
    (fun e h => by
      have he : e = ⟨80, 0⟩ := by simpa [entriesTwo, GoMap.insert, eq_comm] using h
      subst he
      decide)
    rfl rfl rfl

/-! ## The tenant resource cache -/

/-- A string with a suffix appended has that suffix. -/
theorem HasSuffix_append (name suffix : String) : HasSuffix (name ++ suffix) suffix = true := by
  simp [HasSuffix, String.data_append]

/-- Trimming a suffix that was appended gives back the string. -/
theorem TrimSuffix_append (name suffix : String) : TrimSuffix (name ++ suffix) suffix = name := by
  simp [TrimSuffix, HasSuffix_append, String.data_append]

/-- C7: for a domain that is not in the index and has no domain-specific resource: with a valid
default, `ConfigCache.Get` returns the parsed `default.conf` (storing it under the domain) and
`TemplateRegistry.Render` executes `default/contact.html`; with no default either, both fail with
their not-found error, and `Get` leaves the cache as it was. -/
theorem resolve_falls_back_to_default (lib : Lib) :
    (∀ (fs : String → ConfFile) (cc : ConfigCache) (domain : String),
      cc.configs (lib.ToLower domain) = none →
      fs (lib.Join cc.dir (lib.ToLower domain ++ ".conf")) = .missing →
        (∀ c, fs (lib.Join cc.dir "default.conf") = .parsed c →
          ConfigCache.Get lib fs cc domain =
            (.ok c, { cc with configs := cc.configs.insert (lib.ToLower domain) c })) ∧
        (fs (lib.Join cc.dir "default.conf") = .missing →
          ConfigCache.Get lib fs cc domain =
            (.error (.notFound cc.dir (lib.ToLower domain)
              (lib.Join cc.dir (lib.ToLower domain ++ ".conf"))), cc))) ∧
    (∀ (Execute : Template → TemplateData → Option String) (tr : TemplateRegistry)
      (name : String) (data : TemplateData),
      tr.templates (lib.Join (lib.ToLower name) "contact.html") = none →
        (∀ t, tr.templates (lib.Join "default" "contact.html") = some t →
          TemplateRegistry.Render lib Execute tr name data = .executed t (Execute t data)) ∧
        (tr.templates (lib.Join "default" "contact.html") = none →
          TemplateRegistry.Render lib Execute tr name data =
            .notFound (lib.Join "default" "contact.html"))) := by
  refine ⟨fun fs cc domain hmiss hdom => ⟨fun c hdef => ?_, fun hdef => ?_⟩,
    fun Execute tr name data hmiss => ⟨fun t hdef => ?_, fun hdef => ?_⟩⟩
  · simp [ConfigCache.Get, hmiss, hdom, hdef]
  · simp [ConfigCache.Get, hmiss, hdom, hdef]
  · simp [TemplateRegistry.Render, hmiss, hdef]
  · simp [TemplateRegistry.Render, hmiss, hdef]

/-- C7 on a directory with only `default.conf` and an index with only the default template. -/
theorem resolve_falls_back_to_default_witness :
    (ConfigCache.Get libUnix fsDefaultOnly ccEmpty "Acme.com").1 = .ok cfgDefault ∧
      TemplateRegistry.Render libUnix (fun _ _ => none) trDefaultOnly "Acme.com" {} =
        .executed ⟨"templates/default/contact.html"⟩ none :=
  ⟨congrArg Prod.fst
      (((resolve_falls_back_to_default libUnix).1 fsDefaultOnly ccEmpty "Acme.com"
        (by decide) (by decide)).1 cfgDefault (by decide)),
    ((resolve_falls_back_to_default libUnix).2 (fun _ _ => none) trDefaultOnly "Acme.com" {}
      (by decide)).1 ⟨"templates/default/contact.html"⟩ (by decide)⟩

/-- C8 fails as stated: a domain already in the index is answered from the index, with a nil
error, although its config file is malformed. -/
theorem Get_cached_domain_ignores_malformed_file :
    fsMalformedAcme (libUnix.Join ccTwo.dir (libUnix.ToLower "acme.com" ++ ".conf")) = .malformed ∧
      (ConfigCache.Get libUnix fsMalformedAcme ccTwo "acme.com").1 = .ok cfgAcme ∧
      ¬ ∃ e, (ConfigCache.Get libUnix fsMalformedAcme ccTwo "acme.com").1 = .error e := by
  refine ⟨by decide, rfl, ?_⟩
  rintro ⟨e, he⟩
  have h : (ConfigCache.Get libUnix fsMalformedAcme ccTwo "acme.com").1 = .ok cfgAcme := rfl
  rw [h] at he
  cases he

/-- C8 as amended: for a domain that is not in the index and whose config file exists but fails
to decode, `ConfigCache.Get` returns the unmarshal error whatever `default.conf` holds, and the
cache afterwards is the cache before. -/
theorem Get_malformed_domain_file_fails (lib : Lib) (fs : String → ConfFile) (cc : ConfigCache)
    (domain : String) (hmiss : cc.configs (lib.ToLower domain) = none)
    (hbad : fs (lib.Join cc.dir (lib.ToLower domain ++ ".conf")) = .malformed) :
    ConfigCache.Get lib fs cc domain =
      (.error (.unmarshalDomain (lib.Join cc.dir (lib.ToLower domain ++ ".conf"))), cc) := by
  simp [ConfigCache.Get, hmiss, hbad]

/-- C8 as amended, on a directory with a malformed `acme.com.conf` and a valid `default.conf`. -/
theorem Get_malformed_domain_file_fails_witness :
    fsMalformedAcme "config/default.conf" = .parsed cfgDefault ∧
      ConfigCache.Get libUnix fsMalformedAcme ccEmpty "acme.com" =
        (.error (.unmarshalDomain "config/acme.com.conf"), ccEmpty) :=
  ⟨by decide,
    Get_malformed_domain_file_fails libUnix fsMalformedAcme ccEmpty "acme.com"
      (by decide) (by decide)⟩

/-- C9: on a create, write or remove event whose path ends in `.conf` and whose base name is
`name ++ ".conf"`, the watcher leaves an empty index when `name` is `default`, and otherwise
removes the key `name` and keeps the value of every other key; an event whose path does not end
in `.conf` leaves the cache as it was. -/
theorem watchConfigDir_invalidates (lib : Lib) (cc : ConfigCache) (event : Event) :
    (∀ name : String, event.Op &&& (fsWrite ||| fsCreate ||| fsRemove) ≠ 0 →
      HasSuffix event.Name ".conf" = true → lib.Base event.Name = name ++ ".conf" →
        (name = "default" → ∀ k, (cc.watchConfigDir lib event).configs k = none) ∧
        (name ≠ "default" → (cc.watchConfigDir lib event).configs name = none ∧
          ∀ k, k ≠ name → (cc.watchConfigDir lib event).configs k = cc.configs k)) ∧
    (HasSuffix event.Name ".conf" = false → cc.watchConfigDir lib event = cc) := by
  refine ⟨fun name hop hsuf hbase => ⟨fun hname k => ?_, fun hname => ⟨?_, fun k hk => ?_⟩⟩,
    fun hsuf => ?_⟩
  · have htrim : TrimSuffix (lib.Base event.Name) ".conf" = "default" := by
      rw [hbase, TrimSuffix_append, hname]
    simp [ConfigCache.watchConfigDir, hop, hsuf, htrim, GoMap.empty]
  · simp [ConfigCache.watchConfigDir, hop, hsuf, hbase, TrimSuffix_append, hname, GoMap.delete]
  · simp [ConfigCache.watchConfigDir, hop, hsuf, hbase, TrimSuffix_append, hname, GoMap.delete, hk]
  · simp [ConfigCache.watchConfigDir, hsuf]

/-- C9 on the event of the claim: a write to `acme.com.conf` removes only the entry `acme.com`. -/
theorem watchConfigDir_invalidates_witness :
    (ccTwo.watchConfigDir libUnix ⟨"config/acme.com.conf", fsWrite⟩).configs "acme.com" = none ∧
      ∀ k, k ≠ "acme.com" →
        (ccTwo.watchConfigDir libUnix ⟨"config/acme.com.conf", fsWrite⟩).configs k =
          ccTwo.configs k :=
  ((watchConfigDir_invalidates libUnix ccTwo ⟨"config/acme.com.conf", fsWrite⟩).1 "acme.com"
    (by decide) (by decide) (by decide)).2 (by decide)

/-! ## The admission pipeline -/

/-- The handler as nested case distinctions on what its collaborators answer. -/
theorem handleContact_eq (lib : Lib) (c : Collaborators) (req : Request) :
    handleContact lib c req =
      match c.Get (lib.ToLower req.Host) with
      | .error _ => .ok ⟨500, lib.ToLower req.Host, { Error := "Failed to load config" }, []⟩
      | .ok config =>
        match (if config.AbuseIPDB.Enabled = true then c.checkAbuseIPDB req.RealIP
          else .ok none) with
        | .error f => .error f
        | .ok (some err) =>
          .ok ⟨200, lib.ToLower req.Host, { Error := "Access denied: " ++ err }, []⟩
        | .ok none =>
          if req.Method ≠ "POST" then .ok ⟨200, lib.ToLower req.Host, {}, []⟩
          else
            match c.Bind with
            | .error _ => .ok ⟨200, lib.ToLower req.Host, { Error := "Invalid form data" }, []⟩
            | .ok details =>
              match (if config.SMTPTest.Enabled = true then
                  c.testRecipientSMTPServer details.Email config.SMTPTest else none) with
              | some err =>
                .ok ⟨200, lib.ToLower req.Host, { Error := "SMTP test failed: " ++ err }, []⟩
              | none =>
                match c.sendEmail ⟨details, req.RealIP, req.UserAgent⟩ config.SMTP with
                | some err =>
                  .ok ⟨200, lib.ToLower req.Host, { Error := "Failed to send email: " ++ err },
                    [(⟨details, req.RealIP, req.UserAgent⟩, config.SMTP)]⟩
                | none =>
                  .ok ⟨200, lib.ToLower req.Host, { Success := true },
                    [(⟨details, req.RealIP, req.UserAgent⟩, config.SMTP)]⟩ := by
  unfold handleContact
  cases hg : c.Get (lib.ToLower req.Host) with
  | error e => simp [hg, pure, Except.pure]
  | ok config =>
    cases hen : config.AbuseIPDB.Enabled <;>
    rcases hchk : c.checkAbuseIPDB req.RealIP with f | (_ | err) <;>
    by_cases hm : req.Method = "POST" <;> cases hb : c.Bind <;>
    cases hte : config.SMTPTest.Enabled <;>
    simp [hg, hen, hchk, hm, hb, hte, bind, Except.bind, pure, Except.pure] <;>
    repeat' split
    all_goals simp_all

/-- A condition that holds whenever a flag is set holds, or the flag is off. -/
theorem false_or_of_imp (b : Bool) (P : Prop) (h : b = true → P) : b = false ∨ P := by
  cases b
  · exact Or.inl rfl
  · exact Or.inr (h rfl)

/-- The probe fails with the resolver message when the address splits at one `@` and the
resolver returns no MX record for its domain. -/
theorem testRecipientSMTPServer_no_mx (net : SMTPNet) (email : String) (config : SMTPTestConfig)
    (localPart domain : String) (hsplit : Split email '@' = [localPart, domain])
    (hmx : (net.LookupMX domain).1 = []) :
    testRecipientSMTPServer net email config =
      some ("failed to resolve MX records for " ++ domain ++ ": " ++
        errText (net.LookupMX domain).2) := by
  simp [testRecipientSMTPServer, hsplit, hmx]

/-- C10: `handleContact` calls `sendEmail` at most once, and exactly once precisely when the
config resolves, the reputation check is disabled or returns nil, the method is `POST`, the form
binds, and the mailbox probe is disabled or returns nil. A non-nil reputation error renders
access-denied without a delivery whatever the method; a probe error renders the probe failure
without a delivery, in particular when the resolver finds no MX record for the address's domain;
and the success state is rendered only with one delivery whose result was nil. -/
theorem handleContact_delivers_iff_admitted (lib : Lib) (c : Collaborators) (req : Request) :
    (∀ r, handleContact lib c req = .ok r → r.sendEmailCalls.length ≤ 1) ∧
    ((∃ r, handleContact lib c req = .ok r ∧ r.sendEmailCalls.length = 1) ↔
      ∃ config details, c.Get (lib.ToLower req.Host) = .ok config ∧
        (config.AbuseIPDB.Enabled = false ∨ c.checkAbuseIPDB req.RealIP = .ok none) ∧
        req.Method = "POST" ∧ c.Bind = .ok details ∧
        (config.SMTPTest.Enabled = false ∨
          c.testRecipientSMTPServer details.Email config.SMTPTest = none)) ∧
    (∀ config err, c.Get (lib.ToLower req.Host) = .ok config →
      config.AbuseIPDB.Enabled = true → c.checkAbuseIPDB req.RealIP = .ok (some err) →
      handleContact lib c req =
        .ok ⟨200, lib.ToLower req.Host, { Error := "Access denied: " ++ err }, []⟩) ∧
    (∀ config details err, c.Get (lib.ToLower req.Host) = .ok config →
      (config.AbuseIPDB.Enabled = false ∨ c.checkAbuseIPDB req.RealIP = .ok none) →
      req.Method = "POST" → c.Bind = .ok details → config.SMTPTest.Enabled = true →
      c.testRecipientSMTPServer details.Email config.SMTPTest = some err →
      handleContact lib c req =
        .ok ⟨200, lib.ToLower req.Host, { Error := "SMTP test failed: " ++ err }, []⟩) ∧
    (∀ net config details localPart domain,
      c.testRecipientSMTPServer = testRecipientSMTPServer net →
      c.Get (lib.ToLower req.Host) = .ok config →
      (config.AbuseIPDB.Enabled = false ∨ c.checkAbuseIPDB req.RealIP = .ok none) →
      req.Method = "POST" → c.Bind = .ok details → config.SMTPTest.Enabled = true →
      Split details.Email '@' = [localPart, domain] → (net.LookupMX domain).1 = [] →
      handleContact lib c req =
        .ok ⟨200, lib.ToLower req.Host,
          { Error := "SMTP test failed: " ++ ("failed to resolve MX records for " ++ domain ++
              ": " ++ errText (net.LookupMX domain).2) }, []⟩) ∧
    (∀ r, handleContact lib c req = .ok r → r.data.Success = true →
      ∃ mail smtp, r.sendEmailCalls = [(mail, smtp)] ∧ c.sendEmail mail smtp = none) := by
  have hprobe : ∀ config details err, c.Get (lib.ToLower req.Host) = .ok config →
      (config.AbuseIPDB.Enabled = false ∨ c.checkAbuseIPDB req.RealIP = .ok none) →
      req.Method = "POST" → c.Bind = .ok details → config.SMTPTest.Enabled = true →
      c.testRecipientSMTPServer details.Email config.SMTPTest = some err →
      handleContact lib c req =
        .ok ⟨200, lib.ToLower req.Host, { Error := "SMTP test failed: " ++ err }, []⟩ := by
    intro config details err hg hgate hm hb hte hp
    rw [handleContact_eq]
    rcases hgate with hen | hchk
    · simp [hg, hen, hm, hb, hte, hp]
    · simp [hg, hchk, hm, hb, hte, hp]
  refine ⟨?_, ?_, ?_, hprobe, ?_, ?_⟩
  · intro r hr
    rw [handleContact_eq] at hr
    repeat' split at hr
    all_goals simp_all
    all_goals (subst hr; simp)
  · rw [handleContact_eq]
    constructor
    · rintro ⟨r, hr, hlen⟩
      repeat' split at hr
      all_goals simp_all
      all_goals (subst hr; simp_all)
      all_goals exact ⟨false_or_of_imp _ _ (by assumption), false_or_of_imp _ _ (by assumption)⟩
    · rintro ⟨config, details, hg, hgate, hm, hb, hpr⟩
      have h1 : (if config.AbuseIPDB.Enabled = true then c.checkAbuseIPDB req.RealIP
          else .ok none) = .ok none := by
        rcases hgate with h | h <;> simp [h]
      have h2 : (if config.SMTPTest.Enabled = true then
          c.testRecipientSMTPServer details.Email config.SMTPTest else none) = none := by
        rcases hpr with h | h <;> simp [h]
      simp only [hg, h1, hm, hb, h2]
      cases hs : c.sendEmail ⟨details, req.RealIP, req.UserAgent⟩ config.SMTP <;> simp
  · intro config err hg hen hchk
    rw [handleContact_eq]
    simp [hg, hen, hchk]
  · intro net config details localPart domain hnet hg hgate hm hb hte hsplit hmx
    refine hprobe config details _ hg hgate hm hb hte ?_
    rw [hnet]
    exact testRecipientSMTPServer_no_mx net details.Email config.SMTPTest localPart domain
      hsplit hmx
  · intro r hr hsucc
    rw [handleContact_eq] at hr
    repeat' split at hr
    all_goals simp_all
    all_goals (subst hr; simp_all)
    exact ⟨_, _, ⟨rfl, rfl⟩, by assumption⟩

/-- C10 on two submissions: with the probe enabled and no MX record for the address's domain
the probe failure is rendered and `sendEmail` is not called; with both checks disabled
`sendEmail` is called once. -/
theorem handleContact_delivers_iff_admitted_witness :
    handleContact libUnix collabNoMX postRequest =
        .ok ⟨200, "acme.com",
          { Error := "SMTP test failed: failed to resolve MX records for nowhere.invalid: <nil>" },
          []⟩ ∧
      ∃ r, handleContact libUnix collabDefault postRequest = .ok r ∧
        r.sendEmailCalls.length = 1 :=
  ⟨(handleContact_delivers_iff_admitted libUnix collabNoMX postRequest).2.2.2.2.1 netNoMX cfgAcme
      ⟨"Ann", "ann@nowhere.invalid", "Hello", "A question"⟩ "ann" "nowhere.invalid" rfl rfl
      (Or.inr rfl) rfl rfl rfl (by decide) rfl,
    (handleContact_delivers_iff_admitted libUnix collabDefault postRequest).2.1.mpr
      ⟨cfgDefault, ⟨"Ann", "ann@example.org", "Hello", "A question"⟩, rfl, Or.inl rfl, rfl, rfl,
        Or.inl rfl⟩⟩

/-! ## The provider response -/

/-- C11: what `checkAbuseIPDB` does with a provider response that decodes is the same for every
HTTP status code. When the loaded store has no fresh entry for the address, the response body
decodes but has no `data.abuseConfidenceScore`, and the snapshot is serialised and written, the
call returns nil after one provider call and the snapshot maps the address to score 0 with the
current time; a later call that reads this snapshot at most 24 hours after that time returns nil
with no provider call. -/
theorem checkAbuseIPDB_ignores_status_code (w : World) (ip : String) (m : GoMap CacheEntry)
    (hload : w.cacheFile.loaded = some m)
    (hstale : ∀ e, m ip = some e → ¬ timeSince w.clockAtCheck e.Timestamp ≤ 24 * Hour)
    (hmo : w.marshalOk = true) (hwo : w.writeOk = true) :
    (∀ (status status' : Nat) (body : ResponseBody),
      checkAbuseIPDB { w with reply := queryAbuseIPDB (some ⟨status, body⟩) } ip =
        checkAbuseIPDB { w with reply := queryAbuseIPDB (some ⟨status', body⟩) } ip) ∧
    (∀ status : Nat, w.reply = queryAbuseIPDB (some ⟨status, .object none⟩) →
      ∃ r m', checkAbuseIPDB w ip = .ok r ∧ r.err = none ∧ r.providerCalls = 1 ∧
        r.cacheFile = .snapshot (some m') ∧ m' ip = some ⟨0, w.clockAtUpdate⟩ ∧
        ∀ w' : World, w'.cacheFile = r.cacheFile →
          w'.clockAtCheck - w.clockAtUpdate ≤ 24 * Hour →
          ∃ r', checkAbuseIPDB w' ip = .ok r' ∧ r'.err = none ∧ r'.providerCalls = 0) := by
  refine ⟨fun _ _ _ => rfl, fun status hr => ?_⟩
  have hreply : w.reply = .decoded 0 := hr
  refine ⟨⟨none, 1, .snapshot (some (m.insert ip ⟨0, w.clockAtUpdate⟩)),
      some (m.insert ip ⟨0, w.clockAtUpdate⟩), []⟩, m.insert ip ⟨0, w.clockAtUpdate⟩,
      ?_, rfl, rfl, rfl, ?_, ?_⟩
  · rw [run_of_miss w ip m hload hstale, hreply]
    simp [hmo, hwo]
  · simp [GoMap.insert]
  · intro w' hfile hage
    have hload' : w'.cacheFile.loaded = some (m.insert ip ⟨0, w.clockAtUpdate⟩) := by
      rw [hfile]; rfl
    have hentry : (m.insert ip ⟨0, w.clockAtUpdate⟩) ip = some ⟨0, w.clockAtUpdate⟩ := by
      simp [GoMap.insert]
    have hrun := run_of_fresh w' ip _ ⟨0, w.clockAtUpdate⟩ hload' hentry
      ((timeSince_le_day _ _).mpr hage)
    exact ⟨_, hrun, by simp, rfl⟩

/-- C11 on a first lookup answered with status 429 and no score: the address is allowed and
stored with score 0. -/
theorem checkAbuseIPDB_ignores_status_code_witness :
    ∃ r m', checkAbuseIPDB worldRateLimited "1.2.3.4" = .ok r ∧ r.err = none ∧
      r.providerCalls = 1 ∧ r.cacheFile = .snapshot (some m') ∧
      m' "1.2.3.4" = some ⟨0, worldRateLimited.clockAtUpdate⟩ ∧
      ∀ w' : World, w'.cacheFile = r.cacheFile →
        w'.clockAtCheck - worldRateLimited.clockAtUpdate ≤ 24 * Hour →
        ∃ r', checkAbuseIPDB w' "1.2.3.4" = .ok r' ∧ r'.err = none ∧ r'.providerCalls = 0 :=
  (checkAbuseIPDB_ignores_status_code worldRateLimited "1.2.3.4" GoMap.empty rfl
    (fun e h => by simp [GoMap.empty] at h) rfl rfl).2 429 rfl

end Contacter
